import Mathlib

/-!
# Verification of the BlockchainVote voting backend

Shallow embedding of the core of the VoteChain server (`src/server/routes.ts`,
`src/server/dbStorage.ts` / `src/server/storage.ts`, `src/shared/schema.ts`)
and proofs of the specified properties.

Modelling conventions:
* The SHA-256 digest of `calculateHash` (routes.ts:65-67) is an external
  cryptographic primitive (`crypto.createHash('sha256')` over
  `JSON.stringify`): it is modelled as an abstract parameter
  `hashFn : SealInput → String` over the exact structured input the code
  serializes.
* `bcrypt.compare` and `speakeasy.totp.verify` are external libraries,
  modelled as abstract boolean-valued parameters.
* JavaScript `Date` values are modelled as `Nat` timestamps.  Every
  `new Date()` call site receives its own timestamp parameter, since separate
  calls may observe different clock values.
* `randomUUID()` row ids are modelled by a deterministic counter in the store.
* The unbounded `do/while` proof-of-work loop is modelled with explicit fuel;
  exhausting the fuel corresponds to the loop still running.
* JavaScript string truthiness (`""` is falsy) is modelled explicitly where
  the code branches on it (`latestBlock?.hash || "0"`, `user.totpSecret`,
  `!totpCode`).
-/

/-- A candidate entry embedded in an election row (schema.ts `candidates` jsonb). -/
structure Candidate where
  id : String
  name : String
  party : String
deriving Repr, DecidableEq

/-- A user row (schema.ts `users` table). `password` holds the bcrypt hash. -/
structure UserRec where
  id : String
  username : String
  password : String
  fullName : String
  totpSecret : Option String
  totpEnabled : Bool
  faceDescriptor : Option (List Rat)
  faceEnabled : Bool
deriving Repr, DecidableEq

/-- An election row (schema.ts `elections` table); timestamps elided, they are
never read by the handlers under verification. -/
structure Election where
  id : String
  title : String
  description : String
  isActive : Bool
  candidates : List Candidate
deriving Repr, DecidableEq

/-- A vote row (schema.ts `votes` table). -/
structure VoteRec where
  id : String
  userId : String
  electionId : String
  candidateId : String
  blockHash : String
  previousHash : String
  timestamp : Nat
  nonce : Nat
deriving Repr, DecidableEq

/-- A block row (schema.ts `votingBlocks` table). -/
structure BlockRec where
  id : String
  blockNumber : Nat
  hash : String
  previousHash : String
  votes : List VoteRec
  timestamp : Nat
  nonce : Nat
deriving Repr, DecidableEq

/-- The persistent store (the four tables behind `IStorage`).  `nextId` is a
deterministic stand-in for `randomUUID()`. -/
structure Store where
  users : List UserRec
  elections : List Election
  votes : List VoteRec
  blocks : List BlockRec
  nextId : Nat
deriving Repr, DecidableEq

/-- The vote payload hashed by the `/api/vote` handler (routes.ts:489-494):
`{ userId, electionId, candidateId, timestamp }`. -/
structure VoteData where
  userId : String
  electionId : String
  candidateId : String
  timestamp : Nat
deriving Repr, DecidableEq

/-- The full structured input of `calculateHash` inside `mineBlock`
(routes.ts:76): the vote payload spread together with `previousHash` and the
trial `nonce`. -/
structure SealInput where
  data : VoteData
  previousHash : String
  nonce : Nat
deriving Repr, DecidableEq

/-- The proof-of-work target string of `mineBlock` (routes.ts:72):
`Array(difficulty + 1).join("0")`, i.e. `difficulty` `'0'` characters. -/
def mineTarget (difficulty : Nat) : String :=
  String.mk (List.replicate difficulty '0')

/-- The `do/while` loop of `mineBlock` (routes.ts:74-77), with explicit fuel.
Each iteration increments the nonce and recomputes the fingerprint; the loop
stops when the first `difficulty` characters of the digest are all `'0'`. -/
def mineBlockGo (hashFn : SealInput → String) (data : VoteData)
    (previousHash : String) (difficulty : Nat) : Nat → Nat → Option (String × Nat)
  | 0, _ => none
  | fuel + 1, nonce =>
    let nonce' := nonce + 1
    let hash := hashFn ⟨data, previousHash, nonce'⟩
    if hash.take difficulty = mineTarget difficulty then some (hash, nonce')
    else mineBlockGo hashFn data previousHash difficulty fuel nonce'

/-- `mineBlock(data, previousHash, difficulty)` (routes.ts:69-80): the nonce
search starts from `nonce = 0` and the loop body increments before hashing,
so the first trial nonce is 1. -/
def mineBlock (hashFn : SealInput → String) (data : VoteData)
    (previousHash : String) (difficulty fuel : Nat) : Option (String × Nat) :=
  mineBlockGo hashFn data previousHash difficulty fuel 0

/-- `storage.getUserByUsername` (dbStorage.ts): first row matching the name. -/
def getUserByUsername (s : Store) (username : String) : Option UserRec :=
  s.users.find? (fun u => u.username == username)

/-- `storage.getElection` (dbStorage.ts): row with the given id. -/
def getElection (s : Store) (id : String) : Option Election :=
  s.elections.find? (fun e => e.id == id)

/-- `storage.getVotes(electionId)` (dbStorage.ts): all votes of one election. -/
def getVotes (s : Store) (electionId : String) : List VoteRec :=
  s.votes.filter (fun v => v.electionId == electionId)

/-- `storage.getUserVote(userId, electionId)` (dbStorage.ts): some vote by this
user in this election, if any. -/
def getUserVote (s : Store) (userId electionId : String) : Option VoteRec :=
  s.votes.find? (fun v => v.userId == userId && v.electionId == electionId)

/-- One step of the maximum-block-number selection performed by
`getLatestBlock`'s `ORDER BY block_number DESC LIMIT 1`. -/
def latestStep (acc : Option BlockRec) (b : BlockRec) : Option BlockRec :=
  match acc with
  | none => some b
  | some a => if a.blockNumber < b.blockNumber then some b else some a

/-- The block with the highest `blockNumber`, as returned by
`storage.getLatestBlock` (dbStorage.ts). -/
def latestOf (l : List BlockRec) : Option BlockRec :=
  l.foldl latestStep none

/-- `storage.getLatestBlock` (dbStorage.ts). -/
def getLatestBlock (s : Store) : Option BlockRec :=
  latestOf s.blocks

/-- `storage.getBlocks` (dbStorage.ts): all blocks ordered by `blockNumber`. -/
def getBlocks (s : Store) : List BlockRec :=
  s.blocks.mergeSort (fun a b => a.blockNumber ≤ b.blockNumber)

/-- Deterministic stand-in for `randomUUID()`. -/
def freshId (s : Store) : String :=
  "row-" ++ toString s.nextId

/-- `storage.createVote` (dbStorage.ts:72-82): inserts the vote row with a
fresh id and a fresh `new Date()` timestamp (`tVote`). -/
def createVote (s : Store) (userId electionId candidateId blockHash previousHash : String)
    (nonce tVote : Nat) : VoteRec × Store :=
  let v : VoteRec :=
    { id := freshId s, userId, electionId, candidateId, blockHash, previousHash,
      timestamp := tVote, nonce }
  (v, { s with votes := s.votes ++ [v], nextId := s.nextId + 1 })

/-- `storage.createBlock` (dbStorage.ts:101-111): inserts the block row with a
fresh id and a fresh `new Date()` timestamp (`tBlock`). -/
def createBlock (s : Store) (blockNumber : Nat) (hash previousHash : String)
    (votes : List VoteRec) (nonce tBlock : Nat) : BlockRec × Store :=
  let b : BlockRec :=
    { id := freshId s, blockNumber, hash, previousHash, votes,
      timestamp := tBlock, nonce }
  (b, { s with blocks := s.blocks ++ [b], nextId := s.nextId + 1 })

/-- JavaScript `x || "0"` on `latestBlock?.hash` (routes.ts:487): missing block
or an empty (falsy) hash string both yield the genesis sentinel `"0"`. -/
def hashOrZero (b : Option BlockRec) : String :=
  match b with
  | none => "0"
  | some blk => if blk.hash.isEmpty then "0" else blk.hash

/-- The domain errors of the `/api/vote` handler. -/
inductive VoteError
  | validationError
  | totpRequired
  | faceRequired
  | electionNotFound
  | electionInactive
  | duplicateVote
deriving Repr, DecidableEq

/-- HTTP status attached to each `/api/vote` error (routes.ts:455-484, 534-536). -/
def VoteError.status : VoteError → Nat
  | .validationError => 400
  | .totpRequired => 403
  | .faceRequired => 403
  | .electionNotFound => 404
  | .electionInactive => 400
  | .duplicateVote => 400

/-- Response message attached to each `/api/vote` error.  The
`validationError` message is produced by zod and is modelled opaquely. -/
def VoteError.message : VoteError → String
  | .validationError => "Voting failed"
  | .totpRequired => "TOTP authentication must be enabled before voting. Please complete 2FA setup."
  | .faceRequired => "Face recognition must be enabled before voting. Please complete face authentication setup."
  | .electionNotFound => "Election not found"
  | .electionInactive => "Election is not active"
  | .duplicateVote => "You have already voted in this election"

/-- Outcome of one `/api/vote` request.  `noFuel` marks an exhausted
proof-of-work fuel budget (in the source, the loop would still be running,
so no write has happened). -/
inductive CastResult
  | err : VoteError → CastResult
  | ok : String → Nat → CastResult
  | noFuel : CastResult
deriving Repr, DecidableEq

/-- The sequential eligibility gates of the `/api/vote` handler
(routes.ts:453-484), in source order: zod parse of the body
(`voteSchema`: both ids non-empty), then TOTP enabled, face enabled,
election exists, election active, no prior vote.  Returns the error of the
first failing gate. -/
def castVoteGate (s : Store) (user : UserRec) (electionId candidateId : String) :
    Option VoteError :=
  if electionId.isEmpty || candidateId.isEmpty then some .validationError
  else if !user.totpEnabled then some .totpRequired
  else if !user.faceEnabled then some .faceRequired
  else
    match getElection s electionId with
    | none => some .electionNotFound
    | some election =>
      if !election.isActive then some .electionInactive
      else
        match getUserVote s user.id electionId with
        | some _ => some .duplicateVote
        | none => none

/-- The `/api/vote` handler (routes.ts:450-537).  After the gates pass it
reads the latest block, seals `{ userId, electionId, candidateId,
timestamp: new Date() }` (clock value `tMine`), persists the vote row
(`createVote` stamps its own `new Date()`, clock value `tVote`) and then
the block row (clock value `tBlock`).  Returns the outcome together with
the updated store; on any error the store is returned unchanged. -/
def castVote (hashFn : SealInput → String) (s : Store) (user : UserRec)
    (electionId candidateId : String) (tMine tVote tBlock fuel : Nat) :
    CastResult × Store :=
  match castVoteGate s user electionId candidateId with
  | some e => (.err e, s)
  | none =>
    let latestBlock := getLatestBlock s
    let previousHash := hashOrZero latestBlock
    let voteData : VoteData := ⟨user.id, electionId, candidateId, tMine⟩
    match mineBlock hashFn voteData previousHash 2 fuel with
    | none => (.noFuel, s)
    | some (hash, nonce) =>
      let vs := createVote s user.id electionId candidateId hash previousHash nonce tVote
      let blockNumber :=
        match latestBlock with
        | some b => b.blockNumber + 1
        | none => 1
      let bs := createBlock vs.2 blockNumber hash previousHash [vs.1] nonce tBlock
      (.ok hash blockNumber, bs.2)

/-- Recomputing a block's fingerprint from its stored data
(spec §4.1 `verifyChain`): rebuild the seal input from the single stored
vote's fields (`userId`, `electionId`, `candidateId`, stored `timestamp`)
together with the block's stored `previousHash` and `nonce`, and compare the
digest with the stored `hash`. -/
def recomputesHash (hashFn : SealInput → String) (b : BlockRec) : Bool :=
  match b.votes with
  | [v] => hashFn ⟨⟨v.userId, v.electionId, v.candidateId, v.timestamp⟩,
      b.previousHash, b.nonce⟩ == b.hash
  | _ => false

/-- Stores reachable by sequential `castVote` executions starting from an
empty ledger (no votes, no blocks; users and elections arbitrary). -/
inductive Reachable (hashFn : SealInput → String) : Store → Prop
  | init (s : Store) (hv : s.votes = []) (hb : s.blocks = []) : Reachable hashFn s
  | step (s : Store) (user : UserRec) (electionId candidateId : String)
      (tMine tVote tBlock fuel : Nat) (h : Reachable hashFn s) :
      Reachable hashFn
        (castVote hashFn s user electionId candidateId tMine tVote tBlock fuel).2

/-- Hash-chain shape starting from expected previous hash `ph` and expected
block number `n`: each block links to the one before it, numbers increase by
one, and every sealed hash is a non-empty string. -/
def chainFrom : String → Nat → List BlockRec → Prop
  | _, _, [] => True
  | ph, n, b :: rest =>
    b.previousHash = ph ∧ b.blockNumber = n ∧ ¬b.hash.isEmpty = true ∧
      chainFrom b.hash (n + 1) rest

/-! ## Concrete fixtures for witnesses -/

/-- A concrete stand-in digest function: constant `"00"`, which meets the
difficulty-2 target at the first trial nonce. -/
def hashFnW : SealInput → String := fun _ => "00"

/-- A concrete election fixture (mirrors the seeded sample election). -/
def electionW : Election :=
  ⟨"e1", "2024 Student Council Election", "Vote for your student representative",
    true, [⟨"candidate-1", "Alice Johnson", "Progressive Party"⟩]⟩

/-- A fully-enrolled user fixture. -/
def userW : UserRec :=
  ⟨"u1", "alice", "bcrypt-alice", "Alice A", some "SECRETA", true,
    some (List.replicate 128 (0 : Rat)), true⟩

/-- A second fully-enrolled user fixture. -/
def userW2 : UserRec :=
  ⟨"u2", "bob", "bcrypt-bob", "Bob B", some "SECRETB", true,
    some (List.replicate 128 (0 : Rat)), true⟩

/-- Initial store: two users, one active election, empty ledger. -/
def sW0 : Store := ⟨[userW, userW2], [electionW], [], [], 0⟩

/-- Store after Alice's vote. -/
def sW1 : Store := (castVote hashFnW sW0 userW "e1" "candidate-1" 0 0 0 5).2

/-- Store after Bob's subsequent vote (for an id outside the candidate list). -/
def sW2 : Store := (castVote hashFnW sW1 userW2 "e1" "candidate-9" 3 3 4 5).2

/-- At most one vote row per (voter id, election id) pair. -/
def atMostOnePerPair (s : Store) : Prop :=
  ∀ uid eid : String,
    (s.votes.filter (fun v => v.userId == uid && v.electionId == eid)).length ≤ 1



/-! ## Result tally (GET /api/results/:electionId) -/

/-- One step of the tally reduce (routes.ts:550-553):
`acc[vote.candidateId] = (acc[vote.candidateId] || 0) + 1` on a JS object,
modelled as an association list with unique keys: the existing entry is
incremented in place, a missing key is appended at the end. -/
def tallyInsert : List (String × Nat) → String → List (String × Nat)
  | [], c => [(c, 1)]
  | p :: rest, c => if p.1 = c then (p.1, p.2 + 1) :: rest else p :: tallyInsert rest c

/-- The `votes.reduce(...)` grouping of the results handler (routes.ts:550-553). -/
def tally (votes : List VoteRec) : List (String × Nat) :=
  votes.foldl (fun acc v => tallyInsert acc v.candidateId) []

/-- Reading a candidate's count from the results object; a missing key is an
implicit zero. -/
def lookupCount (results : List (String × Nat)) (c : String) : Nat :=
  match results.find? (fun p => p.1 == c) with
  | some p => p.2
  | none => 0

/-- Sum of all per-candidate counts of a results object. -/
def sumVals (l : List (String × Nat)) : Nat :=
  (l.map Prod.snd).sum

/-- The JSON body of a successful results response (routes.ts:558-566). -/
structure ResultsResponse where
  electionId : String
  results : List (String × Nat)
  totalVotes : Nat
  totalBlocks : Nat
  lastBlockHash : Option String
deriving Repr, DecidableEq

/-- The `GET /api/results/:electionId` handler (routes.ts:539-570): `none`
models the 404 `Election not found` response; `lastBlockHash` models
`blocks[blocks.length - 1]?.hash || null` (JS `||`: an empty hash string also
collapses to null). -/
def getResults (s : Store) (electionId : String) : Option ResultsResponse :=
  match getElection s electionId with
  | none => none
  | some election =>
    let votes := getVotes s electionId
    let blocks := getBlocks s
    some { electionId := election.id, results := tally votes,
           totalVotes := votes.length, totalBlocks := blocks.length,
           lastBlockHash :=
             match blocks.getLast? with
             | none => none
             | some b => if b.hash.isEmpty then none else some b.hash }

/-! ## Login (POST /api/auth/login) -/

/-- JavaScript truthiness of an optional string (`undefined`, `null` and `""`
are falsy). -/
def strTruthy : Option String → Bool
  | none => false
  | some str => !str.isEmpty

/-- Observable shape of a login response: HTTP status, message, and which JSON
fields are present (routes.ts:129-239). -/
structure LoginResponse where
  status : Nat
  message : String
  hasToken : Bool
  requiresTotpSetup : Bool
  requiresTotp : Bool
  requiresFaceSetup : Bool
  includesUser : Bool
  includesFaceDescriptor : Bool
deriving Repr, DecidableEq

/-- The face-stage tail of the login handler (routes.ts:206-235): face setup
still required, or credentials validated with the stored descriptor returned
for the client-side face comparison.  Both issue a token. -/
def loginFaceStage (user : UserRec) : LoginResponse :=
  if !user.faceEnabled then
    { status := 200, message := "Face recognition setup required", hasToken := true,
      requiresTotpSetup := false, requiresTotp := false, requiresFaceSetup := true,
      includesUser := true, includesFaceDescriptor := false }
  else
    { status := 200, message := "Credentials validated - face verification required",
      hasToken := true, requiresTotpSetup := false, requiresTotp := false,
      requiresFaceSetup := false, includesUser := true, includesFaceDescriptor := true }

/-- The `POST /api/auth/login` handler (routes.ts:129-239).  `checkPassword`
models `bcrypt.compare(password, user.password)` and `totpVerify` models
`speakeasy.totp.verify({secret, token, window: 2})`, both external libraries.
The two identity-stage failures (unknown username at routes.ts:145 and a
non-matching password at routes.ts:160) are two distinct return sites in the
source, mirrored here as two separate record literals. -/
def login (checkPassword : String → String → Bool)
    (totpVerify : String → String → Bool)
    (s : Store) (username password : String) (totpCode : Option String) :
    LoginResponse :=
  match getUserByUsername s username with
  | none =>
    { status := 401, message := "Invalid credentials", hasToken := false,
      requiresTotpSetup := false, requiresTotp := false, requiresFaceSetup := false,
      includesUser := false, includesFaceDescriptor := false }
  | some user =>
    if !checkPassword password user.password then
      { status := 401, message := "Invalid credentials", hasToken := false,
        requiresTotpSetup := false, requiresTotp := false, requiresFaceSetup := false,
        includesUser := false, includesFaceDescriptor := false }
    else if !user.totpEnabled then
      { status := 200, message := "TOTP setup required", hasToken := true,
        requiresTotpSetup := true, requiresTotp := false, requiresFaceSetup := false,
        includesUser := true, includesFaceDescriptor := false }
    else if user.totpEnabled && strTruthy user.totpSecret then
      if !strTruthy totpCode then
        { status := 401, message := "TOTP code required", hasToken := false,
          requiresTotpSetup := false, requiresTotp := true, requiresFaceSetup := false,
          includesUser := false, includesFaceDescriptor := false }
      else if !totpVerify (user.totpSecret.getD "") (totpCode.getD "") then
        { status := 401, message := "Invalid TOTP code", hasToken := false,
          requiresTotpSetup := false, requiresTotp := false, requiresFaceSetup := false,
          includesUser := false, includesFaceDescriptor := false }
      else loginFaceStage user
    else loginFaceStage user

/-! ## Face verification (POST /api/auth/verify-face) -/

/-- Observable outcome of the verify-face handler (routes.ts:344-417):
`parseFailed` is the 400 zod rejection, `notEnabled` the 401
`Face recognition not enabled for this user`, `matched`/`mismatch` carry the
(rounded) reported confidence, and `mismatchNaN` is the 401 response produced
when the submitted descriptor is longer than the enrolled one: the loop then
reads `storedDescriptor[i] = undefined`, the distance becomes NaN,
`NaN < 0.6` is false, and `Math.round(Math.max(0, NaN))` is NaN, which
`res.json` serializes as `null`. -/
inductive FaceVerifyResult
  | parseFailed
  | notEnabled
  | matched : Int → FaceVerifyResult
  | mismatch : Int → FaceVerifyResult
  | mismatchNaN
deriving Repr, DecidableEq

/-- HTTP status of a verify-face outcome. -/
def FaceVerifyResult.status : FaceVerifyResult → Nat
  | .parseFailed => 400
  | .notEnabled => 401
  | .matched _ => 200
  | .mismatch _ => 401
  | .mismatchNaN => 401

/-- The reported `isMatch` flag (`NaN < 0.6` is false, so the NaN outcome
reports a mismatch). -/
def FaceVerifyResult.isMatch : FaceVerifyResult → Bool
  | .matched _ => true
  | _ => false

/-- Whether the response carries a bearer token (only on a match). -/
def FaceVerifyResult.hasToken : FaceVerifyResult → Bool
  | .matched _ => true
  | _ => false

/-- The reported rounded confidence field: `some c` for a finite rounded
value, `none` when the response carries no confidence or carries the NaN
that JSON serializes as `null`. -/
def FaceVerifyResult.confidence : FaceVerifyResult → Option Int
  | .matched c => some c
  | .mismatch c => some c
  | _ => none

/-- The squared-distance accumulation of the verify-face loop
(routes.ts:356-361): `diff = faceDescriptor[i] - storedDescriptor[i];
distance += diff * diff`, summed over the indices of the SUBMITTED
descriptor.  When `submitted.length ≤ stored.length` the loop touches
exactly the pairs of `submitted.zip stored`, which is the fold below; the
longer-submitted case, where the source reads `storedDescriptor[i] =
undefined` and the sum degenerates to NaN, is handled separately in
`verifyFace` (outcome `mismatchNaN`).  JS float values are modelled as
exact rationals. -/
def sumSqDiff (submitted stored : List Rat) : Rat :=
  (submitted.zip stored).foldl (fun acc p => acc + (p.1 - p.2) * (p.1 - p.2)) 0

/-- Exact integer value of `⌊(A - √N) / B⌋` for natural `N` and positive `B`,
computed with the integer square root. -/
def floorSubSqrtDiv (A : Int) (N : Nat) (B : Int) : Int :=
  if Nat.sqrt N * Nat.sqrt N = N then (A - Nat.sqrt N) / B
  else (A - Nat.sqrt N - 1) / B

/-- Exact value of `Math.round(Math.max(0, (1 - Math.sqrt q) * 100))`
(routes.ts:366, 386, 411) over an exact rational squared distance `q ≥ 0`:
`round x = ⌊x + 1/2⌋` and
`(1 - √(n/d))·100 + 1/2 = (201·d - √(40000·n·d)) / (2·d)`.
The equivalence with the real-valued rounding is proved in
`roundedConfidence_eq`. -/
def roundedConfidence (q : Rat) : Int :=
  max 0 (floorSubSqrtDiv (201 * q.den) (40000 * q.num.toNat * q.den) (2 * q.den))

/-- The `POST /api/auth/verify-face` handler (routes.ts:344-417).  The zod
parse requires a non-empty username and at least 128 descriptor entries.  The
loop runs over `faceDescriptor.length` (the submitted vector): if the
submitted descriptor is longer than the enrolled one, `storedDescriptor[i]`
is `undefined`, the distance is NaN and the handler always answers with the
401 mismatch carrying a NaN confidence (`mismatchNaN`).  Otherwise the loop
sum is `sumSqDiff`; the source computes `distance = Math.sqrt(distSq)` and
tests `distance < threshold` with `threshold = 0.6`, which over the
non-negative exact squared distance is the equivalent test
`distSq < 9/25 = 0.36` (proved in `sqrt_lt_threshold_iff`). -/
def verifyFace (s : Store) (username : String) (submitted : List Rat) :
    FaceVerifyResult :=
  if username.isEmpty || submitted.length < 128 then .parseFailed
  else
    match getUserByUsername s username with
    | none => .notEnabled
    | some user =>
      if !user.faceEnabled then .notEnabled
      else
        match user.faceDescriptor with
        | none => .notEnabled
        | some stored =>
          if stored.length < submitted.length then .mismatchNaN
          else
            let distSq := sumSqDiff submitted stored
            if distSq < 9/25 then .matched (roundedConfidence distSq)
            else .mismatch (roundedConfidence distSq)

/-! ## Additional concrete fixtures -/

/-- A digest stand-in that distinguishes the sealed payload timestamp:
timestamp 0 digests to `"00A"`, anything else to `"00B"` (both meet the
difficulty-2 target). -/
def hashFnT : SealInput → String :=
  fun si => if si.data.timestamp = 0 then "00A" else "00B"

/-- A digest stand-in that first meets the target at nonce 3. -/
def hashFnN : SealInput → String :=
  fun si => if si.nonce = 3 then "00x" else "zz"

/-- A concrete vote payload. -/
def dataW : VoteData := ⟨"u1", "e1", "candidate-1", 0⟩

/-- A user who has not enabled TOTP. -/
def userNoTotp : UserRec :=
  ⟨"u3", "carol2", "bcrypt-carol2", "Carol C", none, false, none, false⟩

/-- A user with TOTP enabled but face recognition not enrolled. -/
def userNoFace : UserRec :=
  ⟨"u4", "dave", "bcrypt-dave", "Dave D", some "SECRETD", true, none, false⟩

/-- An inactive election. -/
def electionInactiveW : Election :=
  ⟨"e2", "Closed Election", "already over", false, []⟩

/-- A store whose only election is inactive. -/
def sInactive : Store := ⟨[userW], [electionInactiveW], [], [], 0⟩

/-- A user record with `totpEnabled = true` but `totpSecret = null`. -/
def userOddTotp : UserRec :=
  ⟨"u6", "erin", "bcrypt-erin", "Erin E", none, true, none, false⟩

/-- A store holding only `userOddTotp`. -/
def sOdd : Store := ⟨[userOddTotp], [], [], [], 0⟩

/-- A face-enrolled user whose descriptor is the zero vector. -/
def userFace : UserRec :=
  ⟨"u5", "carol", "bcrypt-carol", "Carol F", some "SECRETC", true,
    some (List.replicate 128 (0 : Rat)), true⟩

/-- A store holding only `userFace`. -/
def sFace : Store := ⟨[userFace], [], [], [], 0⟩

/-- A submitted descriptor at squared distance `1/50` from the zero vector. -/
def subNear : List Rat := (1/10 : Rat) :: (1/10 : Rat) :: List.replicate 126 (0 : Rat)

/-- A submitted descriptor at squared distance `1` from the zero vector. -/
def subFar : List Rat := (1 : Rat) :: List.replicate 127 (0 : Rat)

/-- A submitted descriptor one entry longer than the enrolled 128-vector:
the source's loop then reads past the enrolled descriptor and the distance
degenerates to NaN. -/
def subLong : List Rat := List.replicate 129 (0 : Rat)

/-- A toy stand-in for `bcrypt.compare`: the stored hash of password `p` is
`"bcrypt-" ++ p`. -/
def checkPwW : String → String → Bool :=
  fun password stored => stored == "bcrypt-" ++ password

/-- A toy stand-in for the TOTP verifier. -/
def totpVerifyW : String → String → Bool := fun _ _ => true

/-! ## Proof-of-work lemmas -/

/-- Unfolded characterization of a successful run of the mining loop:
the returned digest is the fingerprint at the returned nonce, it meets the
difficulty target, the nonce is above the starting point, and every skipped
nonce failed the target. -/
theorem mineBlockGo_spec (hashFn : SealInput → String) (data : VoteData)
    (prev : String) (d : Nat) :
    ∀ fuel start h n, mineBlockGo hashFn data prev d fuel start = some (h, n) →
      h = hashFn ⟨data, prev, n⟩ ∧ h.take d = mineTarget d ∧ start < n ∧
      ∀ m, start < m → m < n → (hashFn ⟨data, prev, m⟩).take d ≠ mineTarget d := by
  intro fuel
  induction fuel with
  | zero => intro start h n hrun; simp [mineBlockGo] at hrun
  | succ k ih =>
    intro start h n hrun
    simp only [mineBlockGo] at hrun
    by_cases htest : (hashFn ⟨data, prev, start + 1⟩).take d = mineTarget d
    · rw [if_pos htest] at hrun
      obtain ⟨hh, hn⟩ : hashFn ⟨data, prev, start + 1⟩ = h ∧ start + 1 = n := by
        constructor <;> cases hrun <;> rfl
      subst hh; subst hn
      refine ⟨rfl, htest, Nat.lt_succ_self start, ?_⟩
      intro m h1 h2
      omega
    · rw [if_neg htest] at hrun
      obtain ⟨hh, ht, hlt, hmin⟩ := ih (start + 1) h n hrun
      refine ⟨hh, ht, Nat.lt_of_succ_lt hlt, ?_⟩
      intro m h1 h2
      rcases Nat.lt_or_ge m (start + 2) with hm | hm
      · have : m = start + 1 := by omega
        subst this; exact htest
      · exact hmin m (by omega) h2

/-- A digest that meets the positive difficulty target is non-empty. -/
theorem mine_hash_not_empty {h : String} {d : Nat} (hd : 0 < d)
    (ht : h.take d = mineTarget d) : ¬h.isEmpty = true := by
  intro he
  have hemp : h = "" := (String.isEmpty_iff h).mp he
  subst hemp
  cases d with
  | zero => omega
  | succ k =>
    have hdat : ("".take (k + 1)).data = (mineTarget (k + 1)).data := by rw [ht]
    rw [String.data_take] at hdat
    simp [mineTarget] at hdat

/-! ## Chain-shape lemmas -/

/-- Every block in a well-formed chain has a non-empty hash. -/
theorem chainFrom_hash_ne_empty :
    ∀ (l : List BlockRec) (ph : String) (n : Nat), chainFrom ph n l →
      ∀ b ∈ l, ¬b.hash.isEmpty = true := by
  intro l
  induction l with
  | nil => intro ph n _ b hb; cases hb
  | cons c rest ih =>
    intro ph n hc b hb
    obtain ⟨_, _, hne, htail⟩ := hc
    rcases List.mem_cons.mp hb with rfl | hmem
    · exact hne
    · exact ih c.hash (n + 1) htail b hmem

/-- Appending a block that links to the last element (or to the start values
when the chain is empty) preserves the chain shape. -/
theorem chainFrom_snoc :
    ∀ (l : List BlockRec) (ph : String) (n : Nat) (b : BlockRec),
      chainFrom ph n l →
      (match l.getLast? with
        | none => b.previousHash = ph ∧ b.blockNumber = n
        | some last => b.previousHash = last.hash ∧ b.blockNumber = last.blockNumber + 1) →
      ¬b.hash.isEmpty = true →
      chainFrom ph n (l ++ [b]) := by
  intro l
  induction l with
  | nil =>
    intro ph n b _ hlink hne
    simp only [List.getLast?_nil] at hlink
    exact ⟨hlink.1, hlink.2, hne, trivial⟩
  | cons c rest ih =>
    intro ph n b hc hlink hne
    obtain ⟨h1, h2, h3, h4⟩ := hc
    rw [List.getLast?_cons] at hlink
    refine ⟨h1, h2, h3, ih c.hash (n + 1) b h4 ?_ hne⟩
    cases hrest : rest.getLast? with
    | none => rw [hrest] at hlink; simpa [hrest, h2] using hlink
    | some last => rw [hrest] at hlink; simpa [hrest] using hlink

/-- In a well-formed chain, folding `latestStep` from an accumulator whose
number is below the chain's starting number yields the last element. -/
theorem latest_aux :
    ∀ (l : List BlockRec) (ph : String) (n : Nat) (a : BlockRec),
      chainFrom ph n l → a.blockNumber < n →
      l.foldl latestStep (some a) = some (l.getLast?.getD a) := by
  intro l
  induction l with
  | nil => intro ph n a _ _; rfl
  | cons c rest ih =>
    intro ph n a hc ha
    obtain ⟨_, h2, _, h4⟩ := hc
    have hstep : latestStep (some a) c = some c := by
      simp [latestStep, if_pos (h2 ▸ ha)]
    calc (c :: rest).foldl latestStep (some a)
        = rest.foldl latestStep (latestStep (some a) c) := rfl
      _ = rest.foldl latestStep (some c) := by rw [hstep]
      _ = some (rest.getLast?.getD c) := ih c.hash (n + 1) c h4 (h2 ▸ n.lt_succ_self)
      _ = some ((c :: rest).getLast?.getD a) := by rw [List.getLast?_cons]; rfl

/-- In a well-formed chain, the maximum-block-number row returned by
`getLatestBlock` is exactly the most recently appended block. -/
theorem latestOf_eq_getLast {l : List BlockRec} {ph : String} {n : Nat}
    (hc : chainFrom ph n l) : latestOf l = l.getLast? := by
  cases l with
  | nil => rfl
  | cons c rest =>
    obtain ⟨_, h2, _, h4⟩ := hc
    have : latestOf (c :: rest) = rest.foldl latestStep (some c) := rfl
    rw [this, latest_aux rest c.hash (n + 1) c h4 (h2 ▸ n.lt_succ_self),
      List.getLast?_cons]

/-! ## castVote unfolding lemmas -/

/-- A failing gate short-circuits `castVote` with its error and leaves the
store unchanged. -/
theorem castVote_gate_err (hashFn : SealInput → String) (s : Store) (user : UserRec)
    (eid cid : String) (t1 t2 t3 fuel : Nat) (e : VoteError)
    (hg : castVoteGate s user eid cid = some e) :
    castVote hashFn s user eid cid t1 t2 t3 fuel = (.err e, s) := by
  simp [castVote, hg]

/-- If the gates pass but the fuel runs out, no write happens. -/
theorem castVote_noFuel (hashFn : SealInput → String) (s : Store) (user : UserRec)
    (eid cid : String) (t1 t2 t3 fuel : Nat)
    (hg : castVoteGate s user eid cid = none)
    (hm : mineBlock hashFn ⟨user.id, eid, cid, t1⟩ (hashOrZero (latestOf s.blocks)) 2 fuel
      = none) :
    castVote hashFn s user eid cid t1 t2 t3 fuel = (.noFuel, s) := by
  simp [castVote, hg, getLatestBlock, hm]

/-- Explicit shape of a successful `castVote`: the mined digest becomes the
vote's `blockHash` and the block's `hash`, the pre-read latest block fixes
`previousHash` and `blockNumber`, and exactly one vote row and one block row
are appended. -/
theorem castVote_ok_eq (hashFn : SealInput → String) (s : Store) (user : UserRec)
    (eid cid : String) (t1 t2 t3 fuel : Nat) (hash : String) (nonce : Nat)
    (hg : castVoteGate s user eid cid = none)
    (hm : mineBlock hashFn ⟨user.id, eid, cid, t1⟩ (hashOrZero (latestOf s.blocks)) 2 fuel
      = some (hash, nonce)) :
    castVote hashFn s user eid cid t1 t2 t3 fuel =
      (.ok hash (match latestOf s.blocks with | some b => b.blockNumber + 1 | none => 1),
        { s with
          votes := s.votes ++
            [⟨freshId s, user.id, eid, cid, hash, hashOrZero (latestOf s.blocks), t2, nonce⟩],
          blocks := s.blocks ++
            [⟨"row-" ++ toString (s.nextId + 1),
              (match latestOf s.blocks with | some b => b.blockNumber + 1 | none => 1),
              hash, hashOrZero (latestOf s.blocks),
              [⟨freshId s, user.id, eid, cid, hash, hashOrZero (latestOf s.blocks), t2, nonce⟩],
              t3, nonce⟩],
          nextId := s.nextId + 2 }) := by
  simp only [castVote, hg, getLatestBlock, hm, createVote, createBlock, freshId]

/-! ## Chain integrity invariant -/

/-- One `castVote` step preserves the hash-chain shape of the block table. -/
theorem castVote_preserves_chain (hashFn : SealInput → String) (s : Store)
    (user : UserRec) (eid cid : String) (t1 t2 t3 fuel : Nat)
    (h : chainFrom "0" 1 s.blocks) :
    chainFrom "0" 1 (castVote hashFn s user eid cid t1 t2 t3 fuel).2.blocks := by
  cases hg : castVoteGate s user eid cid with
  | some e => rw [castVote_gate_err hashFn s user eid cid t1 t2 t3 fuel e hg]; exact h
  | none =>
    cases hm : mineBlock hashFn ⟨user.id, eid, cid, t1⟩ (hashOrZero (latestOf s.blocks)) 2 fuel with
    | none => rw [castVote_noFuel hashFn s user eid cid t1 t2 t3 fuel hg hm]; exact h
    | some p =>
      obtain ⟨hash, nonce⟩ := p
      obtain ⟨-, htake, -, -⟩ := mineBlockGo_spec hashFn ⟨user.id, eid, cid, t1⟩
        (hashOrZero (latestOf s.blocks)) 2 fuel 0 hash nonce hm
      have hne := mine_hash_not_empty (by norm_num) htake
      rw [castVote_ok_eq hashFn s user eid cid t1 t2 t3 fuel hash nonce hg hm]
      apply chainFrom_snoc s.blocks "0" 1 _ h _ hne
      rw [latestOf_eq_getLast h]
      cases hlast : s.blocks.getLast? with
      | none => simp [hashOrZero]
      | some last =>
        have hlne : ¬last.hash.isEmpty = true :=
          chainFrom_hash_ne_empty s.blocks "0" 1 h last (List.mem_of_mem_getLast? hlast)
        simp [hashOrZero, hlne]

/-- Every store reachable by sequential `castVote` execution from an empty
ledger has a well-formed hash chain starting at block number 1 with the
genesis sentinel `"0"`. -/
theorem reachable_chainFrom (hashFn : SealInput → String) (s : Store)
    (h : Reachable hashFn s) : chainFrom "0" 1 s.blocks := by
  induction h with
  | init s hv hb => rw [hb]; trivial
  | step s user eid cid t1 t2 t3 fuel _ ih =>
    exact castVote_preserves_chain hashFn s user eid cid t1 t2 t3 fuel ih

/-- Head of a well-formed chain: its stored `previousHash` and `blockNumber`
are the chain's start values. -/
theorem chainFrom_head {l : List BlockRec} {ph : String} {n : Nat}
    (hc : chainFrom ph n l) (h0 : 0 < l.length) :
    (l.get ⟨0, h0⟩).previousHash = ph ∧ (l.get ⟨0, h0⟩).blockNumber = n := by
  cases l with
  | nil => simp at h0
  | cons c rest => exact ⟨hc.1, hc.2.1⟩

/-- Consecutive blocks of a well-formed chain: the later block's
`previousHash` is the earlier block's `hash`, and its number is one more. -/
theorem chainFrom_link :
    ∀ (l : List BlockRec) (ph : String) (n i : Nat) (hi : i + 1 < l.length),
      chainFrom ph n l →
      (l.get ⟨i + 1, hi⟩).previousHash = (l.get ⟨i, Nat.lt_of_succ_lt hi⟩).hash ∧
      (l.get ⟨i + 1, hi⟩).blockNumber = (l.get ⟨i, Nat.lt_of_succ_lt hi⟩).blockNumber + 1 := by
  intro l
  induction l with
  | nil => intro ph n i hi _; simp at hi
  | cons c rest ih =>
    intro ph n i hi hc
    obtain ⟨h1, h2, h3, h4⟩ := hc
    cases i with
    | zero =>
      have hr : 0 < rest.length := by simpa using Nat.lt_of_succ_lt_succ hi
      have hh := chainFrom_head h4 hr
      refine ⟨?_, ?_⟩
      · simpa using hh.1
      · have := hh.2
        simp only [List.get_cons_succ, List.get_cons_zero]
        simp only [List.get] at this ⊢
        omega
    | succ j =>
      have hj : j + 1 < rest.length := by simpa using Nat.lt_of_succ_lt_succ hi
      have := ih c.hash (n + 1) j hj h4
      simpa using this

/-- `sW2` holds two blocks. -/
theorem sW2_len : sW2.blocks.length = 2 := by decide

/-! ## C1: chain integrity of reachable ledgers -/

/-- C1: under sequential `castVote` execution from an empty ledger, every
reachable chain state satisfies: the first block has `blockNumber` 1 and
`previousHash` `"0"`; every later block has `blockNumber` one more than its
predecessor and `previousHash` equal to the predecessor's `hash` — hence
`block[n].previousHash = block[n-1].hash` for all `n > 1`. -/
theorem reachable_chain_integrity (hashFn : SealInput → String) (s : Store)
    (h : Reachable hashFn s) :
    (∀ h0 : 0 < s.blocks.length,
      (s.blocks.get ⟨0, h0⟩).blockNumber = 1 ∧
      (s.blocks.get ⟨0, h0⟩).previousHash = "0") ∧
    (∀ i, ∀ hi : i + 1 < s.blocks.length,
      (s.blocks.get ⟨i + 1, hi⟩).blockNumber =
        (s.blocks.get ⟨i, Nat.lt_of_succ_lt hi⟩).blockNumber + 1 ∧
      (s.blocks.get ⟨i + 1, hi⟩).previousHash =
        (s.blocks.get ⟨i, Nat.lt_of_succ_lt hi⟩).hash) := by
  have hc := reachable_chainFrom hashFn s h
  constructor
  · intro h0
    have hh := chainFrom_head hc h0
    exact ⟨hh.2, hh.1⟩
  · intro i hi
    have hl := chainFrom_link s.blocks "0" 1 i hi hc
    exact ⟨hl.2, hl.1⟩

/-- Witness for C1: a concrete two-block reachable ledger. -/
theorem reachable_chain_integrity_witness :
    (sW2.blocks.get ⟨0, by decide⟩).blockNumber = 1 ∧
    (sW2.blocks.get ⟨0, by decide⟩).previousHash = "0" ∧
    (sW2.blocks.get ⟨1, by decide⟩).previousHash = (sW2.blocks.get ⟨0, by decide⟩).hash ∧
    (sW2.blocks.get ⟨1, by decide⟩).blockNumber = (sW2.blocks.get ⟨0, by decide⟩).blockNumber + 1 := by
  have R : Reachable hashFnW sW2 :=
    Reachable.step sW1 userW2 "e1" "candidate-9" 3 3 4 5
      (Reachable.step sW0 userW "e1" "candidate-1" 0 0 0 5
        (Reachable.init sW0 rfl rfl))
  obtain ⟨hhead, hlink⟩ := reachable_chain_integrity hashFnW sW2 R
  exact ⟨(hhead (by decide)).1, (hhead (by decide)).2,
    (hlink 0 (by decide)).2, (hlink 0 (by decide)).1⟩

/-! ## C2: one vote per (user, election) -/

/-- A filter keeps nothing from a singleton whose element fails the test. -/
theorem filter_singleton_eq_nil {α : Type} (p : α → Bool) (a : α)
    (h : ¬p a = true) : [a].filter p = [] := by
  simp [List.filter, h]

/-- Inversion of a passing gate: all five checks succeeded. -/
theorem castVoteGate_none_inv (s : Store) (user : UserRec) (eid cid : String)
    (h : castVoteGate s user eid cid = none) :
    ¬eid.isEmpty = true ∧ ¬cid.isEmpty = true ∧
    user.totpEnabled = true ∧ user.faceEnabled = true ∧
    (∃ e, getElection s eid = some e ∧ e.isActive = true) ∧
    getUserVote s user.id eid = none := by
  by_cases h1 : (eid.isEmpty || cid.isEmpty) = true
  · rw [castVoteGate, if_pos h1] at h; cases h
  · rw [castVoteGate, if_neg h1] at h
    have hids := h1
    simp only [Bool.or_eq_true, not_or] at hids
    by_cases h2 : (!user.totpEnabled) = true
    · rw [if_pos h2] at h; cases h
    · rw [if_neg h2] at h
      by_cases h3 : (!user.faceEnabled) = true
      · rw [if_pos h3] at h; cases h
      · rw [if_neg h3] at h
        cases he : getElection s eid with
        | none => rw [he] at h; dsimp only at h; cases h
        | some e =>
          rw [he] at h
          dsimp only at h
          by_cases h4 : (!e.isActive) = true
          · rw [if_pos h4] at h; cases h
          · rw [if_neg h4] at h
            cases hv : getUserVote s user.id eid with
            | some v => rw [hv] at h; dsimp only at h; cases h
            | none =>
              refine ⟨hids.1, hids.2, ?_, ?_, ⟨e, rfl, ?_⟩, rfl⟩ <;>
                simp_all [Bool.not_eq_true]

/-- Inversion of a successful `castVote`: the gates passed and the miner
returned the reported digest. -/
theorem castVote_ok_inv (hashFn : SealInput → String) (s : Store) (user : UserRec)
    (eid cid : String) (t1 t2 t3 fuel : Nat) (hash : String) (bn : Nat) (s' : Store)
    (h : castVote hashFn s user eid cid t1 t2 t3 fuel = (.ok hash bn, s')) :
    castVoteGate s user eid cid = none ∧
    ∃ nonce, mineBlock hashFn ⟨user.id, eid, cid, t1⟩
      (hashOrZero (latestOf s.blocks)) 2 fuel = some (hash, nonce) := by
  cases hg : castVoteGate s user eid cid with
  | some e =>
    rw [castVote_gate_err hashFn s user eid cid t1 t2 t3 fuel e hg] at h
    simp at h
  | none =>
    cases hm : mineBlock hashFn ⟨user.id, eid, cid, t1⟩
        (hashOrZero (latestOf s.blocks)) 2 fuel with
    | none =>
      rw [castVote_noFuel hashFn s user eid cid t1 t2 t3 fuel hg hm] at h
      simp at h
    | some p =>
      obtain ⟨h2, n2⟩ := p
      rw [castVote_ok_eq hashFn s user eid cid t1 t2 t3 fuel h2 n2 hg hm] at h
      simp only [Prod.mk.injEq, CastResult.ok.injEq] at h
      exact ⟨rfl, n2, by rw [h.1.1]⟩

/-- A `castVote` step preserves the one-vote-per-pair property. -/
theorem castVote_preserves_atMostOne (hashFn : SealInput → String) (s : Store)
    (user : UserRec) (eid cid : String) (t1 t2 t3 fuel : Nat)
    (h : atMostOnePerPair s) :
    atMostOnePerPair (castVote hashFn s user eid cid t1 t2 t3 fuel).2 := by
  cases hg : castVoteGate s user eid cid with
  | some e => rw [castVote_gate_err hashFn s user eid cid t1 t2 t3 fuel e hg]; exact h
  | none =>
    cases hm : mineBlock hashFn ⟨user.id, eid, cid, t1⟩
        (hashOrZero (latestOf s.blocks)) 2 fuel with
    | none => rw [castVote_noFuel hashFn s user eid cid t1 t2 t3 fuel hg hm]; exact h
    | some p =>
      obtain ⟨hash, nonce⟩ := p
      rw [castVote_ok_eq hashFn s user eid cid t1 t2 t3 fuel hash nonce hg hm]
      intro uid eid'
      simp only [List.filter_append, List.length_append]
      by_cases hp : (uid = user.id ∧ eid' = eid)
      · rw [hp.1, hp.2]
        have hnone := (castVoteGate_none_inv s user eid cid hg).2.2.2.2.2
        rw [getUserVote] at hnone
        have hfil : s.votes.filter (fun v => v.userId == user.id && v.electionId == eid) = [] :=
          List.filter_eq_nil_iff.mpr (List.find?_eq_none.mp hnone)
        rw [hfil]
        simp
      · have hfil : ([(⟨freshId s, user.id, eid, cid, hash,
            hashOrZero (latestOf s.blocks), t2, nonce⟩ : VoteRec)].filter
              (fun v => v.userId == uid && v.electionId == eid')) = [] := by
          apply filter_singleton_eq_nil
          simp only [Bool.and_eq_true, beq_iff_eq]
          intro hc
          exact hp ⟨hc.1.symm, hc.2.symm⟩
        rw [hfil]
        simp only [List.length_nil, Nat.add_zero]
        exact h uid eid'

/-- Updating votes/blocks/nextId leaves election lookups unchanged. -/
theorem getElection_set (s : Store) (vv : List VoteRec) (bb : List BlockRec)
    (k : Nat) (eid : String) :
    getElection { s with votes := vv, blocks := bb, nextId := k } eid =
      getElection s eid := rfl

/-- Vote lookup in a store with replaced vote table. -/
theorem getUserVote_set (s : Store) (vv : List VoteRec) (bb : List BlockRec)
    (k : Nat) (uid eid : String) :
    getUserVote { s with votes := vv, blocks := bb, nextId := k } uid eid =
      vv.find? (fun v => v.userId == uid && v.electionId == eid) := rfl

/-- C2: for every (user, election) pair at most one vote row exists in any
store reachable by sequential `castVote` execution from an empty ledger; and a
second `castVote` by the same user for the same election, right after a
successful one, returns the `DuplicateVote` error (HTTP 400, "You have already
voted in this election") and leaves the store unchanged — no vote and no block
is appended. -/
theorem one_vote_per_election (hashFn : SealInput → String) :
    (∀ s : Store, Reachable hashFn s → atMostOnePerPair s) ∧
    (∀ (s : Store) (user : UserRec) (eid cid cid2 : String)
        (t1 t2 t3 fuel t1' t2' t3' fuel' : Nat) (hash : String) (bn : Nat) (s' : Store),
      castVote hashFn s user eid cid t1 t2 t3 fuel = (.ok hash bn, s') →
      ¬cid2.isEmpty = true →
      castVote hashFn s' user eid cid2 t1' t2' t3' fuel' = (.err .duplicateVote, s') ∧
      VoteError.duplicateVote.status = 400 ∧
      VoteError.duplicateVote.message = "You have already voted in this election") := by
  constructor
  · intro s hs
    induction hs with
    | init s hv hb => intro uid eid; rw [hv]; simp
    | step s user eid cid t1 t2 t3 fuel _ ih =>
      exact castVote_preserves_atMostOne hashFn s user eid cid t1 t2 t3 fuel ih
  · intro s user eid cid cid2 t1 t2 t3 fuel t1' t2' t3' fuel' hash bn s' hok hcid2
    obtain ⟨hg, nonce, hm⟩ := castVote_ok_inv hashFn s user eid cid t1 t2 t3 fuel hash bn s' hok
    obtain ⟨heid, hcid, htotp, hface, ⟨e, he, hact⟩, hnone⟩ :=
      castVoteGate_none_inv s user eid cid hg
    rw [castVote_ok_eq hashFn s user eid cid t1 t2 t3 fuel hash nonce hg hm] at hok
    simp only [Prod.mk.injEq] at hok
    obtain ⟨-, hs'⟩ := hok
    subst hs'
    have hgate2 : castVoteGate
        { s with
          votes := s.votes ++
            [⟨freshId s, user.id, eid, cid, hash, hashOrZero (latestOf s.blocks), t2, nonce⟩],
          blocks := s.blocks ++
            [⟨"row-" ++ toString (s.nextId + 1),
              (match latestOf s.blocks with | some b => b.blockNumber + 1 | none => 1),
              hash, hashOrZero (latestOf s.blocks),
              [⟨freshId s, user.id, eid, cid, hash, hashOrZero (latestOf s.blocks), t2, nonce⟩],
              t3, nonce⟩],
          nextId := s.nextId + 2 } user eid cid2 = some .duplicateVote := by
      rw [castVoteGate]
      rw [if_neg (by simp only [Bool.or_eq_true]; tauto)]
      rw [if_neg (by simp [htotp])]
      rw [if_neg (by simp [hface])]
      rw [getElection_set, he]
      dsimp only
      rw [if_neg (by simp [hact])]
      rw [getUserVote_set, List.find?_append]
      rw [getUserVote] at hnone
      rw [hnone]
      simp [List.find?]
    exact ⟨castVote_gate_err hashFn _ user eid cid2 t1' t2' t3' fuel' .duplicateVote hgate2,
      rfl, rfl⟩

/-- Witness for C2: Alice's duplicate vote in the concrete store. -/
theorem one_vote_per_election_witness :
    (sW1.votes.filter (fun v => v.userId == "u1" && v.electionId == "e1")).length ≤ 1 ∧
    castVote hashFnW sW1 userW "e1" "candidate-1" 7 8 9 5 = (.err .duplicateVote, sW1) := by
  obtain ⟨hinv, hsecond⟩ := one_vote_per_election hashFnW
  constructor
  · exact hinv sW1
      (Reachable.step sW0 userW "e1" "candidate-1" 0 0 0 5 (Reachable.init sW0 rfl rfl))
      "u1" "e1"
  · exact (hsecond sW0 userW "e1" "candidate-1" "candidate-1" 0 0 0 5 7 8 9 5 "00" 1 sW1
      (by decide) (by decide)).1

/-! ## C5: gate order of castVote -/

/-- C5: the eligibility checks of `castVote` run in a fixed order and the
first failing check short-circuits with its specific error, leaving the store
unchanged: TOTP disabled gives `TotpRequired` (403) regardless of any other
state; then face disabled gives `FaceRequired` (403); then a missing election
gives `ElectionNotFound` (404); then an inactive election gives
`ElectionInactive` (400); then an existing prior vote gives `DuplicateVote`
(400). -/
theorem castVote_gate_order (hashFn : SealInput → String) (s : Store)
    (user : UserRec) (eid cid : String) (t1 t2 t3 fuel : Nat)
    (hid : ¬eid.isEmpty = true) (hcid : ¬cid.isEmpty = true) :
    (user.totpEnabled = false →
      castVote hashFn s user eid cid t1 t2 t3 fuel = (.err .totpRequired, s) ∧
      VoteError.totpRequired.status = 403) ∧
    (user.totpEnabled = true → user.faceEnabled = false →
      castVote hashFn s user eid cid t1 t2 t3 fuel = (.err .faceRequired, s) ∧
      VoteError.faceRequired.status = 403) ∧
    (user.totpEnabled = true → user.faceEnabled = true →
      getElection s eid = none →
      castVote hashFn s user eid cid t1 t2 t3 fuel = (.err .electionNotFound, s) ∧
      VoteError.electionNotFound.status = 404) ∧
    (∀ e : Election, user.totpEnabled = true → user.faceEnabled = true →
      getElection s eid = some e → e.isActive = false →
      castVote hashFn s user eid cid t1 t2 t3 fuel = (.err .electionInactive, s) ∧
      VoteError.electionInactive.status = 400) ∧
    (∀ (e : Election) (v : VoteRec), user.totpEnabled = true →
      user.faceEnabled = true → getElection s eid = some e → e.isActive = true →
      getUserVote s user.id eid = some v →
      castVote hashFn s user eid cid t1 t2 t3 fuel = (.err .duplicateVote, s) ∧
      VoteError.duplicateVote.status = 400) := by
  have hids : ¬(eid.isEmpty || cid.isEmpty) = true := by
    simp only [Bool.or_eq_true]; tauto
  refine ⟨?_, ?_, ?_, ?_, ?_⟩
  · intro htotp
    have hg : castVoteGate s user eid cid = some .totpRequired := by
      rw [castVoteGate, if_neg hids, if_pos (by simp [htotp])]
    exact ⟨castVote_gate_err hashFn s user eid cid t1 t2 t3 fuel _ hg, rfl⟩
  · intro htotp hface
    have hg : castVoteGate s user eid cid = some .faceRequired := by
      rw [castVoteGate, if_neg hids, if_neg (by simp [htotp]),
        if_pos (by simp [hface])]
    exact ⟨castVote_gate_err hashFn s user eid cid t1 t2 t3 fuel _ hg, rfl⟩
  · intro htotp hface he
    have hg : castVoteGate s user eid cid = some .electionNotFound := by
      rw [castVoteGate, if_neg hids, if_neg (by simp [htotp]),
        if_neg (by simp [hface]), he]
    exact ⟨castVote_gate_err hashFn s user eid cid t1 t2 t3 fuel _ hg, rfl⟩
  · intro e htotp hface he hact
    have hg : castVoteGate s user eid cid = some .electionInactive := by
      rw [castVoteGate, if_neg hids, if_neg (by simp [htotp]),
        if_neg (by simp [hface]), he]
      dsimp only
      rw [if_pos (by simp [hact])]
    exact ⟨castVote_gate_err hashFn s user eid cid t1 t2 t3 fuel _ hg, rfl⟩
  · intro e v htotp hface he hact hv
    have hg : castVoteGate s user eid cid = some .duplicateVote := by
      rw [castVoteGate, if_neg hids, if_neg (by simp [htotp]),
        if_neg (by simp [hface]), he]
      dsimp only
      rw [if_neg (by simp [hact]), hv]
    exact ⟨castVote_gate_err hashFn s user eid cid t1 t2 t3 fuel _ hg, rfl⟩

/-- Witness for C5: each gate error observed on a concrete store. -/
theorem castVote_gate_order_witness :
    (castVote hashFnW sW0 userNoTotp "e1" "candidate-1" 0 0 0 5 =
      (.err .totpRequired, sW0)) ∧
    (castVote hashFnW sW0 userNoFace "e1" "candidate-1" 0 0 0 5 =
      (.err .faceRequired, sW0)) ∧
    (castVote hashFnW sW0 userW "missing" "candidate-1" 0 0 0 5 =
      (.err .electionNotFound, sW0)) ∧
    (castVote hashFnW sInactive userW "e2" "candidate-1" 0 0 0 5 =
      (.err .electionInactive, sInactive)) ∧
    (castVote hashFnW sW1 userW "e1" "candidate-2" 7 8 9 5 =
      (.err .duplicateVote, sW1)) := by
  refine ⟨?_, ?_, ?_, ?_, ?_⟩
  · exact ((castVote_gate_order hashFnW sW0 userNoTotp "e1" "candidate-1" 0 0 0 5
      (by decide) (by decide)).1 (by decide)).1
  · exact ((castVote_gate_order hashFnW sW0 userNoFace "e1" "candidate-1" 0 0 0 5
      (by decide) (by decide)).2.1 (by decide) (by decide)).1
  · exact ((castVote_gate_order hashFnW sW0 userW "missing" "candidate-1" 0 0 0 5
      (by decide) (by decide)).2.2.1 (by decide) (by decide) (by decide)).1
  · exact ((castVote_gate_order hashFnW sInactive userW "e2" "candidate-1" 0 0 0 5
      (by decide) (by decide)).2.2.2.1 electionInactiveW (by decide) (by decide)
        (by decide) (by decide)).1
  · exact ((castVote_gate_order hashFnW sW1 userW "e1" "candidate-2" 7 8 9 5
      (by decide) (by decide)).2.2.2.2 electionW
        ⟨"row-0", "u1", "e1", "candidate-1", "00", "0", 0, 1⟩
        (by decide) (by decide) (by decide) (by decide) (by decide)).1

/-! ## C4: proof-of-work sealing -/

/-- C4: a successful `mineBlock` run returns a pair whose hash is exactly the
fingerprint of the payload, previous hash and returned nonce, whose first
`difficulty` characters are all `'0'`, and whose nonce is the least integer
at least 1 with that property (the search starts at 1 and increments by 1).
The source loop is unbounded; the hypothesis is that it returned within
`fuel` iterations. -/
theorem mineBlock_found_spec (hashFn : SealInput → String) (data : VoteData)
    (prev : String) (d fuel : Nat) (hash : String) (nonce : Nat)
    (h : mineBlock hashFn data prev d fuel = some (hash, nonce)) :
    hash = hashFn ⟨data, prev, nonce⟩ ∧
    hash.take d = mineTarget d ∧
    1 ≤ nonce ∧
    ∀ m, 1 ≤ m → m < nonce → (hashFn ⟨data, prev, m⟩).take d ≠ mineTarget d := by
  obtain ⟨h1, h2, h3, h4⟩ := mineBlockGo_spec hashFn data prev d fuel 0 hash nonce h
  exact ⟨h1, h2, h3, fun m hm1 hm2 => h4 m hm1 hm2⟩

/-- Witness for C4: a digest function that first meets the target at nonce 3. -/
theorem mineBlock_found_spec_witness :
    mineBlock hashFnN dataW "0" 2 10 = some ("00x", 3) ∧
    "00x" = hashFnN ⟨dataW, "0", 3⟩ ∧
    "00x".take 2 = mineTarget 2 ∧
    (1 : Nat) ≤ 3 := by
  have hrun : mineBlock hashFnN dataW "0" 2 10 = some ("00x", 3) := by decide
  obtain ⟨h1, h2, h3, -⟩ := mineBlock_found_spec hashFnN dataW "0" 2 10 "00x" 3 hrun
  exact ⟨hrun, h1, h2, h3⟩

/-! ## C3: recomputing fingerprints from stored rows -/

/-- C3 (code-bug demonstration): the handler hashes the timestamp captured
before mining (`tMine`) but `createVote` stores a fresh `new Date()`
(`tVote`).  With `tMine = 0` and `tVote = 1` the single appended block stores
hash `"00A"`, yet recomputing the fingerprint from the stored vote row
(its stored timestamp) yields `"00B"`: `recomputesHash` is `false`.  When the
clock does not advance (`tMine = tVote = 0`) recomputation succeeds, showing
the failure is exactly the re-stamping. -/
theorem vote_restamps_sealed_timestamp :
    ((castVote hashFnT sW0 userW "e1" "candidate-1" 0 1 2 5).2.blocks.map
        (fun b => b.hash)) = ["00A"] ∧
    ((castVote hashFnT sW0 userW "e1" "candidate-1" 0 1 2 5).2.blocks.map
        (fun b => b.votes.map (fun v => v.timestamp))) = [[1]] ∧
    ((castVote hashFnT sW0 userW "e1" "candidate-1" 0 1 2 5).2.blocks.map
        (recomputesHash hashFnT)) = [false] ∧
    ((castVote hashFnT sW0 userW "e1" "candidate-1" 0 0 2 5).2.blocks.map
        (recomputesHash hashFnT)) = [true] := by
  decide

/-! ## C6: tally correctness -/

/-- Sum of counts over an empty results object. -/
theorem sumVals_nil : sumVals [] = 0 := rfl

/-- Sum of counts over a non-empty results object. -/
theorem sumVals_cons (p : String × Nat) (t : List (String × Nat)) :
    sumVals (p :: t) = p.2 + sumVals t := by
  simp [sumVals]

/-- Reading a count from a non-empty results object. -/
theorem lookupCount_cons (p : String × Nat) (t : List (String × Nat)) (c : String) :
    lookupCount (p :: t) c = if p.1 = c then p.2 else lookupCount t c := by
  by_cases h : p.1 = c
  · rw [lookupCount, List.find?_cons_of_pos _ (by simp [h]), if_pos h]
  · rw [lookupCount, List.find?_cons_of_neg _ (by simp [h]), if_neg h]; rfl

/-- `tallyInsert` adds exactly one to the total count. -/
theorem sumVals_tallyInsert (l : List (String × Nat)) (c : String) :
    sumVals (tallyInsert l c) = sumVals l + 1 := by
  induction l with
  | nil => rfl
  | cons p rest ih =>
    by_cases hp : p.1 = c
    · rw [tallyInsert, if_pos hp, sumVals_cons, sumVals_cons]
      omega
    · rw [tallyInsert, if_neg hp, sumVals_cons, sumVals_cons, ih]
      omega

/-- Reading any count from the empty results object gives zero. -/
theorem lookupCount_nil (c : String) : lookupCount [] c = 0 := rfl

/-- `tallyInsert` increments exactly the inserted key. -/
theorem lookupCount_tallyInsert (l : List (String × Nat)) (c c' : String) :
    lookupCount (tallyInsert l c) c' =
      lookupCount l c' + (if c' = c then 1 else 0) := by
  induction l with
  | nil =>
    rw [tallyInsert, lookupCount_cons, lookupCount_nil]
    by_cases h : c = c'
    · rw [if_pos h, if_pos h.symm]
    · rw [if_neg h, if_neg (fun hc => h hc.symm)]
      try omega
  | cons p rest ih =>
    by_cases hp : p.1 = c
    · rw [tallyInsert, if_pos hp, lookupCount_cons, lookupCount_cons]
      by_cases h : p.1 = c'
      · rw [if_pos h, if_pos h, if_pos (by rw [← h, hp])]
      · rw [if_neg h, if_neg h, if_neg (by intro hcc; apply h; rw [hp, ← hcc])]
        try omega
    · rw [tallyInsert, if_neg hp, lookupCount_cons, lookupCount_cons, ih]
      by_cases h : p.1 = c'
      · rw [if_pos h, if_pos h, if_neg (by intro hcc; apply hp; rw [h, hcc])]
        try omega
      · rw [if_neg h, if_neg h]

/-- Folding the tally step adds the list length to the total count. -/
theorem tally_go_sum :
    ∀ (vs : List VoteRec) (acc : List (String × Nat)),
      sumVals (vs.foldl (fun a v => tallyInsert a v.candidateId) acc) =
        sumVals acc + vs.length := by
  intro vs
  induction vs with
  | nil => intro acc; simp
  | cons v rest ih =>
    intro acc
    simp only [List.foldl_cons, List.length_cons]
    rw [ih, sumVals_tallyInsert]
    omega

/-- Folding the tally step counts each key's occurrences. -/
theorem tally_go_lookup :
    ∀ (vs : List VoteRec) (acc : List (String × Nat)) (c : String),
      lookupCount (vs.foldl (fun a v => tallyInsert a v.candidateId) acc) c =
        lookupCount acc c + (vs.filter (fun v => v.candidateId == c)).length := by
  intro vs
  induction vs with
  | nil => intro acc c; simp
  | cons v rest ih =>
    intro acc c
    simp only [List.foldl_cons]
    rw [ih, lookupCount_tallyInsert, List.filter_cons]
    by_cases h : (v.candidateId == c) = true
    · have hc : c = v.candidateId := (beq_iff_eq.mp h).symm
      rw [if_pos h, if_pos hc]
      simp only [List.length_cons]
      omega
    · have hc : ¬c = v.candidateId := fun hcc => h (beq_iff_eq.mpr hcc.symm)
      rw [if_neg h, if_neg hc]
      omega

/-- The tally object counts each candidate's votes exactly. -/
theorem lookupCount_tally (vs : List VoteRec) (c : String) :
    lookupCount (tally vs) c = (vs.filter (fun v => v.candidateId == c)).length := by
  rw [tally, tally_go_lookup, lookupCount_nil]; omega

/-- The tally object's counts sum to the number of votes. -/
theorem sumVals_tally (vs : List VoteRec) :
    sumVals (tally vs) = vs.length := by
  rw [tally, tally_go_sum, sumVals_nil]; omega

/-- C6: for every existing election, `getResults` returns a results object
assigning to each candidate id the number of stored votes for that election
with that id; the counts sum to `totalVotes`, which is the number of stored
votes for the election; an empty vote set yields `totalVotes = 0` and an
empty results object, with no failure. -/
theorem getResults_tally_correct (s : Store) (eid : String) (e : Election)
    (he : getElection s eid = some e) :
    ∃ r : ResultsResponse, getResults s eid = some r ∧
      (∀ c : String, lookupCount r.results c =
        ((getVotes s eid).filter (fun v => v.candidateId == c)).length) ∧
      sumVals r.results = r.totalVotes ∧
      r.totalVotes = (getVotes s eid).length ∧
      (getVotes s eid = [] → r.totalVotes = 0 ∧ r.results = []) := by
  refine ⟨_, by rw [getResults, he], ?_, ?_, rfl, ?_⟩
  · intro c
    exact lookupCount_tally (getVotes s eid) c
  · exact sumVals_tally (getVotes s eid)
  · intro hv
    rw [hv]
    exact ⟨rfl, rfl⟩

/-- Witness for C6 on the concrete two-vote store. -/
theorem getResults_tally_correct_witness :
    (getResults sW2 "e1").map (fun r => lookupCount r.results "candidate-1") = some 1 ∧
    (getResults sW2 "e1").map (fun r => (sumVals r.results, r.totalVotes)) = some (2, 2) := by
  obtain ⟨r, hr, hlook, hsum, htot, -⟩ :=
    getResults_tally_correct sW2 "e1" electionW (by decide)
  rw [hr]
  have h1 : lookupCount r.results "candidate-1" = 1 :=
    (hlook "candidate-1").trans (by decide)
  have h2 : r.totalVotes = 2 := htot.trans (by decide)
  exact ⟨congrArg some h1, congrArg some (by simp only [hsum, h2])⟩

/-! ## C7: candidate ids are not validated -/

/-- Vote listing in a store with replaced vote table. -/
theorem getVotes_set (s : Store) (vv : List VoteRec) (bb : List BlockRec)
    (k : Nat) (eid : String) :
    getVotes { s with votes := vv, blocks := bb, nextId := k } eid =
      vv.filter (fun v => v.electionId == eid) := rfl

/-- Per-candidate counts after appending one vote row for this election:
each count is the old count plus one exactly for the new row's candidate. -/
theorem getResults_after_append (s : Store) (eid : String) (e : Election)
    (v : VoteRec) (bb : List BlockRec) (k : Nat)
    (he : getElection s eid = some e) (hv : v.electionId = eid) :
    ∃ r : ResultsResponse,
      getResults { s with votes := s.votes ++ [v], blocks := bb, nextId := k } eid = some r ∧
      ∀ c : String, lookupCount r.results c =
        ((getVotes s eid).filter (fun w => w.candidateId == c)).length +
          (if v.candidateId = c then 1 else 0) := by
  obtain ⟨r, hr, hlook, -, -, -⟩ :=
    getResults_tally_correct { s with votes := s.votes ++ [v], blocks := bb, nextId := k }
      eid e ((getElection_set s (s.votes ++ [v]) bb k eid).trans he)
  refine ⟨r, hr, fun c => ?_⟩
  rw [hlook c, getVotes_set, List.filter_append]
  have hfe : ([v].filter (fun w => w.electionId == eid)) = [v] := by
    simp [List.filter, hv]
  rw [hfe, List.filter_append, List.length_append, getVotes]
  by_cases h : v.candidateId = c
  · rw [if_pos h]
    have : ([v].filter (fun w => w.candidateId == c)) = [v] := by
      simp [List.filter, h]
    rw [this]
    rfl
  · rw [if_neg h]
    have hb : (v.candidateId == c) = false := beq_eq_false_iff_ne.mpr h
    have : ([v].filter (fun w => w.candidateId == c)) = [] := by
      simp [List.filter, hb]
    rw [this]
    rfl

/-- C7: `castVote` never validates the candidate id against the election's
candidate list: with both factors enabled, an existing active election and no
prior vote, it succeeds for any non-empty `candidateId` string (no membership
hypothesis appears below), and `getResults` afterwards counts that vote under
that id. -/
theorem castVote_ignores_candidate_list (hashFn : SealInput → String) (s : Store)
    (user : UserRec) (eid cid : String) (e : Election) (t1 t2 t3 fuel : Nat)
    (hash : String) (nonce : Nat)
    (hid : ¬eid.isEmpty = true) (hcid : ¬cid.isEmpty = true)
    (htotp : user.totpEnabled = true) (hface : user.faceEnabled = true)
    (he : getElection s eid = some e) (hact : e.isActive = true)
    (hnone : getUserVote s user.id eid = none)
    (hm : mineBlock hashFn ⟨user.id, eid, cid, t1⟩
      (hashOrZero (latestOf s.blocks)) 2 fuel = some (hash, nonce)) :
    ∃ (s' : Store) (bn : Nat),
      castVote hashFn s user eid cid t1 t2 t3 fuel = (.ok hash bn, s') ∧
      ∃ r : ResultsResponse, getResults s' eid = some r ∧
        lookupCount r.results cid =
          ((getVotes s eid).filter (fun v => v.candidateId == cid)).length + 1 := by
  have hg : castVoteGate s user eid cid = none := by
    rw [castVoteGate, if_neg (by simp only [Bool.or_eq_true]; tauto),
      if_neg (by simp [htotp]), if_neg (by simp [hface]), he]
    dsimp only
    rw [if_neg (by simp [hact]), hnone]
  refine ⟨_, _, castVote_ok_eq hashFn s user eid cid t1 t2 t3 fuel hash nonce hg hm, ?_⟩
  obtain ⟨r, hr, hlook⟩ := getResults_after_append s eid e
    ⟨freshId s, user.id, eid, cid, hash, hashOrZero (latestOf s.blocks), t2, nonce⟩
    (s.blocks ++
      [⟨"row-" ++ toString (s.nextId + 1),
        (match latestOf s.blocks with | some b => b.blockNumber + 1 | none => 1),
        hash, hashOrZero (latestOf s.blocks),
        [⟨freshId s, user.id, eid, cid, hash, hashOrZero (latestOf s.blocks), t2, nonce⟩],
        t3, nonce⟩])
    (s.nextId + 2) he rfl
  refine ⟨r, hr, ?_⟩
  rw [hlook cid, if_pos rfl]

/-- Witness for C7: Bob's vote for `"candidate-9"`, an id absent from the
election's candidate list, succeeds and is counted. -/
theorem castVote_ignores_candidate_list_witness :
    (electionW.candidates.map Candidate.id) = ["candidate-1"] ∧
    castVote hashFnW sW1 userW2 "e1" "candidate-9" 3 3 4 5 = (.ok "00" 2, sW2) ∧
    (getResults sW2 "e1").map (fun r => lookupCount r.results "candidate-9") = some 1 := by
  obtain ⟨s', bn, hcast, r, hr, hlook⟩ :=
    castVote_ignores_candidate_list hashFnW sW1 userW2 "e1" "candidate-9" electionW
      3 3 4 5 "00" 1 (by decide) (by decide) (by decide) (by decide) (by decide)
      (by decide) (by decide) (by decide)
  have hcomp : castVote hashFnW sW1 userW2 "e1" "candidate-9" 3 3 4 5 =
      (.ok "00" 2, sW2) := by decide
  rw [hcomp] at hcast
  simp only [Prod.mk.injEq, CastResult.ok.injEq] at hcast
  obtain ⟨-, hs⟩ := hcast
  rw [← hs] at hr
  refine ⟨by decide, hcomp, ?_⟩
  rw [hr]
  exact congrArg some (hlook.trans (by decide))

/-! ## C9: identity-stage failures are indistinguishable -/

/-- C9: a login that fails because the username does not exist and a login
that fails because the password does not match produce identical responses:
both are HTTP 401 with the message "Invalid credentials", so the caller
cannot tell the two causes apart. -/
theorem login_invalid_credentials_indistinguishable
    (checkPassword totpVerify : String → String → Bool)
    (s1 s2 : Store) (username p1 p2 : String) (tc1 tc2 : Option String)
    (u : UserRec)
    (h1 : getUserByUsername s1 username = none)
    (h2 : getUserByUsername s2 username = some u)
    (hp : checkPassword p2 u.password = false) :
    login checkPassword totpVerify s1 username p1 tc1 =
      login checkPassword totpVerify s2 username p2 tc2 ∧
    (login checkPassword totpVerify s1 username p1 tc1).status = 401 ∧
    (login checkPassword totpVerify s1 username p1 tc1).message = "Invalid credentials" := by
  have e1 : login checkPassword totpVerify s1 username p1 tc1 =
      { status := 401, message := "Invalid credentials", hasToken := false,
        requiresTotpSetup := false, requiresTotp := false, requiresFaceSetup := false,
        includesUser := false, includesFaceDescriptor := false } := by
    simp [login, h1]
  have e2 : login checkPassword totpVerify s2 username p2 tc2 =
      { status := 401, message := "Invalid credentials", hasToken := false,
        requiresTotpSetup := false, requiresTotp := false, requiresFaceSetup := false,
        includesUser := false, includesFaceDescriptor := false } := by
    simp [login, h2, hp]
  rw [e1, e2]
  exact ⟨rfl, rfl, rfl⟩

/-- Witness for C9: unknown username versus Alice with a wrong password. -/
theorem login_invalid_credentials_indistinguishable_witness :
    login checkPwW totpVerifyW sOdd "alice" "alice" none =
      login checkPwW totpVerifyW sW0 "alice" "wrongpw" (some "123456") ∧
    (login checkPwW totpVerifyW sOdd "alice" "alice" none).status = 401 ∧
    (login checkPwW totpVerifyW sOdd "alice" "alice" none).message =
      "Invalid credentials" :=
  login_invalid_credentials_indistinguishable checkPwW totpVerifyW sOdd sW0
    "alice" "alice" "wrongpw" none (some "123456") userW
    (by decide) (by decide) (by decide)

/-! ## C10: TOTP enabled with a null secret skips verification -/

/-- C10: for a user whose `totpEnabled` flag is true but whose `totpSecret`
is null, login performs no TOTP verification at all — the response does not
depend on the submitted code or on the verifier, can be neither
`requiresTotp` nor `Invalid TOTP code`, and proceeds directly to the
face-setup or face-verification response with a token issued — because the
TOTP block is guarded by the conjunction `totpEnabled && totpSecret`. -/
theorem login_skips_totp_without_secret
    (checkPassword totpVerify : String → String → Bool)
    (s : Store) (username password : String) (totpCode : Option String) (u : UserRec)
    (hu : getUserByUsername s username = some u)
    (hp : checkPassword password u.password = true)
    (htotp : u.totpEnabled = true)
    (hsec : u.totpSecret = none) :
    login checkPassword totpVerify s username password totpCode = loginFaceStage u ∧
    (∀ (tc' : Option String) (tv' : String → String → Bool),
      login checkPassword tv' s username password tc' =
        login checkPassword totpVerify s username password totpCode) ∧
    (login checkPassword totpVerify s username password totpCode).status = 200 ∧
    (login checkPassword totpVerify s username password totpCode).hasToken = true ∧
    (login checkPassword totpVerify s username password totpCode).requiresTotp = false ∧
    (login checkPassword totpVerify s username password totpCode).message ≠
      "Invalid TOTP code" ∧
    ((login checkPassword totpVerify s username password totpCode).requiresFaceSetup = true ∨
      (login checkPassword totpVerify s username password totpCode).includesFaceDescriptor
        = true) := by
  have key : ∀ (tc : Option String) (tv : String → String → Bool),
      login checkPassword tv s username password tc = loginFaceStage u := by
    intro tc tv
    simp [login, hu, hp, htotp, hsec, strTruthy]
  have hface : (loginFaceStage u).status = 200 ∧ (loginFaceStage u).hasToken = true ∧
      (loginFaceStage u).requiresTotp = false ∧
      (loginFaceStage u).message ≠ "Invalid TOTP code" ∧
      ((loginFaceStage u).requiresFaceSetup = true ∨
        (loginFaceStage u).includesFaceDescriptor = true) := by
    by_cases hf : u.faceEnabled = true <;> simp [loginFaceStage, hf]
  rw [key totpCode totpVerify]
  exact ⟨rfl, fun tc' tv' => key tc' tv',
    hface.1, hface.2.1, hface.2.2.1, hface.2.2.2.1, hface.2.2.2.2⟩

/-- Witness for C10: Erin has `totpEnabled = true` and no secret. -/
theorem login_skips_totp_without_secret_witness :
    login checkPwW totpVerifyW sOdd "erin" "erin" none = loginFaceStage userOddTotp ∧
    login checkPwW (fun _ _ => false) sOdd "erin" "erin" (some "000000") =
      login checkPwW totpVerifyW sOdd "erin" "erin" none ∧
    (login checkPwW totpVerifyW sOdd "erin" "erin" none).status = 200 ∧
    (login checkPwW totpVerifyW sOdd "erin" "erin" none).hasToken = true ∧
    (login checkPwW totpVerifyW sOdd "erin" "erin" none).requiresTotp = false := by
  have H := login_skips_totp_without_secret checkPwW totpVerifyW sOdd "erin" "erin"
    none userOddTotp (by decide) (by decide) (by decide) (by decide)
  exact ⟨H.1, H.2.1 (some "000000") (fun _ _ => false), H.2.2.1, H.2.2.2.1, H.2.2.2.2.1⟩

/-! ## C8: face verification -/

/-- The accumulated squared distance is non-negative. -/
theorem sumSqDiff_nonneg (a b : List Rat) : 0 ≤ sumSqDiff a b := by
  rw [sumSqDiff]
  have key : ∀ (l : List (Rat × Rat)) (acc : Rat), 0 ≤ acc →
      0 ≤ l.foldl (fun acc p => acc + (p.1 - p.2) * (p.1 - p.2)) acc := by
    intro l
    induction l with
    | nil => intro acc h; simpa using h
    | cons p rest ih =>
      intro acc h
      simp only [List.foldl_cons]
      exact ih _ (add_nonneg h (mul_self_nonneg _))
  exact key (a.zip b) 0 le_rfl

/-- The source's `Math.sqrt(distSq) < 0.6` test is equivalent to the
squared-distance test `distSq < 0.36` used in the embedding. -/
theorem sqrt_lt_threshold_iff (q : Rat) (_hq : 0 ≤ q) :
    Real.sqrt (q : ℝ) < 3 / 5 ↔ (q : ℝ) < 9 / 25 := by
  rw [Real.sqrt_lt' (by norm_num)]
  norm_num

/-- Rounding commutes with clamping at zero. -/
theorem round_max_zero (x : ℝ) : round (max 0 x) = max 0 (round x) := by
  rcases le_total x 0 with h | h
  · have hr : round x ≤ 0 := by
      rw [round_eq]
      calc ⌊x + 1 / 2⌋ ≤ ⌊(0 : ℝ) + 1 / 2⌋ := Int.floor_le_floor (by linarith)
        _ = 0 := by norm_num
    rw [max_eq_left h, max_eq_left hr, round_zero]
  · have hr : 0 ≤ round x := by
      have h0 : (0 : ℤ) = ⌊(0 : ℝ) + 1 / 2⌋ := by norm_num
      rw [round_eq, h0]
      exact Int.floor_le_floor (by linarith)
    rw [max_eq_right h, max_eq_right hr]

/-- Floor of `y / B` when `y` lies in `[u, u+1)`: it is the integer floor
division `u / B`. -/
theorem floor_sub_div_eq (u B : Int) (hB : 0 < B) (y : ℝ)
    (h1 : (u : ℝ) ≤ y) (h2 : y < u + 1) :
    ⌊y / (B : ℝ)⌋ = u / B := by
  have hBR : (0 : ℝ) < (B : ℝ) := by exact_mod_cast hB
  have hdm := Int.ediv_add_emod u B
  have hm0 := Int.emod_nonneg u (ne_of_gt hB)
  have hmB := Int.emod_lt_of_pos u hB
  rw [Int.floor_eq_iff]
  constructor
  · have hq : ((u / B : ℤ) : ℝ) * B ≤ u := by
      have hbu : B * (u / B) ≤ u := by linarith
      have hcast : ((B * (u / B) : ℤ) : ℝ) ≤ (u : ℝ) := by exact_mod_cast hbu
      push_cast at hcast
      linarith
    calc ((u / B : ℤ) : ℝ) ≤ (u : ℝ) / B := by rw [le_div_iff₀ hBR]; exact hq
      _ ≤ y / B := div_le_div_of_nonneg_right h1 hBR.le
  · have hlt : y / B < ((u : ℝ) + 1) / B := by
      apply div_lt_div_of_pos_right h2 hBR
    have hZ : u + 1 ≤ B * (u / B) + B := by linarith
    have hup : ((u : ℝ) + 1) / B ≤ ((u / B : ℤ) : ℝ) + 1 := by
      rw [div_le_iff₀ hBR]
      have hcast : ((u + 1 : ℤ) : ℝ) ≤ ((B * (u / B) + B : ℤ) : ℝ) := by exact_mod_cast hZ
      push_cast at hcast ⊢
      linarith
    exact lt_of_lt_of_le hlt hup

/-- `floorSubSqrtDiv` computes `⌊(A - √N) / B⌋` exactly. -/
theorem floor_sub_sqrt (A : Int) (N : Nat) (B : Int) (hB : 0 < B) :
    ⌊((A : ℝ) - Real.sqrt N) / (B : ℝ)⌋ = floorSubSqrtDiv A N B := by
  rw [floorSubSqrtDiv]
  by_cases hsq : Nat.sqrt N * Nat.sqrt N = N
  · rw [if_pos hsq]
    have hs : Real.sqrt N = Nat.sqrt N := by
      have hcast : ((N : ℕ) : ℝ) = ((Nat.sqrt N : ℕ) : ℝ) ^ 2 := by
        conv_lhs => rw [← hsq]
        push_cast
        ring
      rw [hcast]
      exact Real.sqrt_sq (by positivity)
    rw [hs]
    apply floor_sub_div_eq _ _ hB
    · push_cast; linarith
    · push_cast; linarith
  · rw [if_neg hsq]
    have hlow : (Nat.sqrt N : ℝ) < Real.sqrt N := by
      rw [Real.lt_sqrt (by positivity)]
      have hle : Nat.sqrt N * Nat.sqrt N ≤ N := Nat.sqrt_le N
      have hlt : Nat.sqrt N * Nat.sqrt N < N := lt_of_le_of_ne hle hsq
      have hcast : ((Nat.sqrt N * Nat.sqrt N : ℕ) : ℝ) < ((N : ℕ) : ℝ) := by
        exact_mod_cast hlt
      push_cast at hcast ⊢
      nlinarith
    have hhigh : Real.sqrt N < Nat.sqrt N + 1 := by
      rw [Real.sqrt_lt' (by positivity)]
      have hcast : ((N : ℕ) : ℝ) < ((Nat.sqrt N + 1) * (Nat.sqrt N + 1) : ℕ) := by
        exact_mod_cast Nat.lt_succ_sqrt N
      push_cast at hcast ⊢
      nlinarith
    apply floor_sub_div_eq _ _ hB
    · push_cast; linarith
    · push_cast; linarith

/-- `roundedConfidence` computes the code's
`Math.round(Math.max(0, (1 - Math.sqrt q) * 100))` exactly. -/
theorem roundedConfidence_eq (q : Rat) (hq : 0 ≤ q) :
    roundedConfidence q = round (max 0 ((1 - Real.sqrt (q : ℝ)) * 100)) := by
  have hd : 0 < q.den := q.den_pos
  have hdR : (0 : ℝ) < (q.den : ℝ) := by exact_mod_cast hd
  have hnum : ((q.num.toNat : ℕ) : ℝ) = ((q.num : ℤ) : ℝ) := by
    exact_mod_cast congrArg Int.cast (Int.toNat_of_nonneg (Rat.num_nonneg.mpr hq))
  have hqcast : (q : ℝ) = ((q.num.toNat : ℕ) : ℝ) / ((q.den : ℕ) : ℝ) := by
    rw [Rat.cast_def, hnum]
  have hsqrtN : Real.sqrt ((40000 * q.num.toNat * q.den : ℕ) : ℝ) =
      200 * (q.den : ℝ) * Real.sqrt ((q.num.toNat : ℝ) / (q.den : ℝ)) := by
    have hN : ((40000 * q.num.toNat * q.den : ℕ) : ℝ) =
        (200 * (q.den : ℝ)) ^ 2 * ((q.num.toNat : ℝ) / (q.den : ℝ)) := by
      push_cast
      field_simp
      ring
    rw [hN, Real.sqrt_mul (by positivity), Real.sqrt_sq (by positivity)]
  have key : (1 - Real.sqrt (q : ℝ)) * 100 + 1 / 2 =
      (((201 * q.den : ℤ) : ℝ) - Real.sqrt ((40000 * q.num.toNat * q.den : ℕ) : ℝ)) /
        ((2 * q.den : ℤ) : ℝ) := by
    rw [hqcast, hsqrtN]
    push_cast
    field_simp
    ring
  rw [round_max_zero, roundedConfidence, round_eq, key,
    floor_sub_sqrt _ _ _ (by positivity)]

/-- The integer square root is characterized by its two bounding squares. -/
theorem nat_sqrt_eq {m N : Nat} (h1 : m * m ≤ N) (h2 : N < (m + 1) * (m + 1)) :
    Nat.sqrt N = m := by
  have ha : m ≤ Nat.sqrt N := Nat.le_sqrt.mpr h1
  have hb : Nat.sqrt N < m + 1 := Nat.sqrt_lt.mpr h2
  omega

set_option maxRecDepth 100000 in
/-- Concrete evaluation: Carol's zero-vector enrollment against `subNear`
(squared distance `1/50`, distance `√2/10 ≈ 0.141`) matches with reported
confidence `round(100 - 10√2) = 86`. -/
theorem verifyFace_carol_matched :
    verifyFace sFace "carol" subNear = .matched 86 := by
  have hsum : sumSqDiff subNear (List.replicate 128 (0 : Rat)) = 1 / 50 := by
    with_unfolding_all decide
  have hnum : ((1 : ℚ) / 50).num.toNat = 1 := by with_unfolding_all decide
  have hden : ((1 : ℚ) / 50).den = 50 := by with_unfolding_all decide
  have hsq : Nat.sqrt 2000000 = 1414 := nat_sqrt_eq (by norm_num) (by norm_num)
  have hconf : roundedConfidence (1 / 50) = 86 := by
    rw [roundedConfidence, hnum, hden, floorSubSqrtDiv]
    have hN : (40000 * 1 * 50 : ℕ) = 2000000 := by norm_num
    rw [hN, hsq, if_neg (by norm_num)]
    decide
  have hb1 : ("carol".isEmpty || decide (subNear.length < 128)) = false := by decide
  rw [verifyFace, if_neg (by rw [hb1]; simp)]
  rw [show getUserByUsername sFace "carol" = some userFace from by decide]
  dsimp only
  rw [if_neg (by decide)]
  rw [show userFace.faceDescriptor = some (List.replicate 128 (0 : Rat)) from rfl]
  dsimp only
  rw [if_neg (by decide)]
  rw [hsum, if_pos (by norm_num), hconf]

set_option maxRecDepth 100000 in
/-- C8 counterexample: the claim says the reported confidence equals
`max(0, (1 - distance) * 100)`, but the handler reports `Math.round` of that
value (routes.ts:386, 411).  For Carol's enrolled zero vector and a submitted
descriptor at distance `√2/10`, the reported confidence is the integer 86
while `max(0, (1 - distance) * 100) = 100 - 10√2` is irrational, so the two
differ. -/
theorem verifyFace_confidence_counterexample :
    userFace.faceDescriptor = some (List.replicate 128 (0 : Rat)) ∧
    verifyFace sFace "carol" subNear = .matched 86 ∧
    (verifyFace sFace "carol" subNear).confidence = some 86 ∧
    ¬(((86 : ℤ) : ℝ) =
      max 0 ((1 - Real.sqrt
        ((sumSqDiff subNear (List.replicate 128 (0 : Rat)) : ℚ) : ℝ)) * 100)) := by
  refine ⟨rfl, verifyFace_carol_matched, by rw [verifyFace_carol_matched]; rfl, ?_⟩
  have hsum : sumSqDiff subNear (List.replicate 128 (0 : Rat)) = 1 / 50 := by
    with_unfolding_all decide
  rw [hsum]
  have h2 : Real.sqrt (((1 / 50 : ℚ) : ℝ)) = Real.sqrt 2 / 10 := by
    rw [show (((1 / 50 : ℚ)) : ℝ) = (Real.sqrt 2 / 10) ^ 2 by
      rw [div_pow, Real.sq_sqrt (by norm_num : (0 : ℝ) ≤ 2)]
      norm_num]
    exact Real.sqrt_sq (by positivity)
  rw [h2]
  have hlt : Real.sqrt 2 < 10 := by
    rw [Real.sqrt_lt' (by norm_num)]
    norm_num
  rw [max_eq_right (by nlinarith [Real.sqrt_nonneg 2])]
  intro heq
  push_cast at heq
  have hrat : Real.sqrt 2 = ((7 / 5 : ℚ) : ℝ) := by
    push_cast
    linarith
  exact Rat.not_irrational (7 / 5) (hrat ▸ irrational_sqrt_two)

/-- C8 (amended): for a face-enabled user with an enrolled descriptor and a
well-formed request, when the submitted descriptor is no longer than the
enrolled one, `verifyFace` reports `isMatch = true` iff the Euclidean
distance between the descriptors is strictly below 0.6, and the reported
confidence equals `Math.round(max(0, (1 - distance) * 100))` — the rounding
is what the claim as stated omits; on a match the response is HTTP 200 with
a bearer token, on a mismatch HTTP 401 with `isMatch = false` and no token.
When the submitted descriptor is strictly longer than the enrolled one, the
source's loop reads past the enrolled vector, the distance degenerates to
NaN, and the handler always answers 401 with `isMatch = false`, no token,
and a null confidence. -/
theorem verifyFace_spec_amended (s : Store) (username : String)
    (submitted stored : List Rat) (user : UserRec)
    (hname : ¬username.isEmpty = true) (hlen : 128 ≤ submitted.length)
    (hu : getUserByUsername s username = some user)
    (hface : user.faceEnabled = true)
    (hdesc : user.faceDescriptor = some stored) :
    (submitted.length ≤ stored.length →
      ((verifyFace s username submitted).isMatch = true ↔
        Real.sqrt ((sumSqDiff submitted stored : ℚ) : ℝ) < 3 / 5) ∧
      (verifyFace s username submitted).confidence =
        some (round (max 0
          ((1 - Real.sqrt ((sumSqDiff submitted stored : ℚ) : ℝ)) * 100))) ∧
      ((verifyFace s username submitted).isMatch = true →
        (verifyFace s username submitted).status = 200 ∧
        (verifyFace s username submitted).hasToken = true) ∧
      ((verifyFace s username submitted).isMatch = false →
        (verifyFace s username submitted).status = 401 ∧
        (verifyFace s username submitted).hasToken = false)) ∧
    (stored.length < submitted.length →
      verifyFace s username submitted = .mismatchNaN ∧
      (verifyFace s username submitted).isMatch = false ∧
      (verifyFace s username submitted).status = 401 ∧
      (verifyFace s username submitted).hasToken = false ∧
      (verifyFace s username submitted).confidence = none) := by
  have hq0 := sumSqDiff_nonneg submitted stored
  have hname' : username.isEmpty = false := by
    cases h : username.isEmpty
    · rfl
    · exact absurd h hname
  have hlen' : decide (submitted.length < 128) = false := by
    simp [Nat.not_lt.mpr hlen]
  constructor
  · intro hle
    have hnlt : ¬stored.length < submitted.length := Nat.not_lt.mpr hle
    have hveq : verifyFace s username submitted =
        if sumSqDiff submitted stored < 9 / 25 then
          .matched (roundedConfidence (sumSqDiff submitted stored))
        else .mismatch (roundedConfidence (sumSqDiff submitted stored)) := by
      simp [verifyFace, hname', hlen', hu, hface, hdesc, hnlt]
    rw [hveq]
    by_cases hm : sumSqDiff submitted stored < 9 / 25
    · rw [if_pos hm]
      refine ⟨?_, ?_, fun _ => ⟨rfl, rfl⟩,
        fun hfalse => by simp [FaceVerifyResult.isMatch] at hfalse⟩
      · refine iff_of_true rfl ((sqrt_lt_threshold_iff _ hq0).mpr ?_)
        have hc : ((sumSqDiff submitted stored : ℚ) : ℝ) < ((9 / 25 : ℚ) : ℝ) :=
          Rat.cast_lt.mpr hm
        push_cast at hc
        exact hc
      · exact congrArg some (roundedConfidence_eq _ hq0)
    · rw [if_neg hm]
      refine ⟨?_, ?_, fun htrue => by simp [FaceVerifyResult.isMatch] at htrue,
        fun _ => ⟨rfl, rfl⟩⟩
      · apply iff_of_false (by simp [FaceVerifyResult.isMatch])
        rw [sqrt_lt_threshold_iff _ hq0]
        intro hc
        rw [show (9 / 25 : ℝ) = ((9 / 25 : ℚ) : ℝ) by norm_num] at hc
        exact hm (Rat.cast_lt.mp hc)
      · exact congrArg some (roundedConfidence_eq _ hq0)
  · intro hgt
    have hveq : verifyFace s username submitted = .mismatchNaN := by
      simp [verifyFace, hname', hlen', hu, hface, hdesc, hgt]
    rw [hveq]
    exact ⟨rfl, rfl, rfl, rfl, rfl⟩

set_option maxRecDepth 100000 in
/-- Witness for the amended C8: Carol's concrete match on matching-length
vectors, and the NaN mismatch for a 129-entry submission against her
128-entry enrollment. -/
theorem verifyFace_spec_amended_witness :
    (verifyFace sFace "carol" subNear).isMatch = true ∧
    (verifyFace sFace "carol" subNear).confidence = some 86 ∧
    (verifyFace sFace "carol" subNear).status = 200 ∧
    (verifyFace sFace "carol" subNear).hasToken = true ∧
    verifyFace sFace "carol" subLong = .mismatchNaN ∧
    (verifyFace sFace "carol" subLong).isMatch = false ∧
    (verifyFace sFace "carol" subLong).status = 401 ∧
    (verifyFace sFace "carol" subLong).confidence = none := by
  have H := verifyFace_spec_amended sFace "carol" subNear
    (List.replicate 128 (0 : Rat)) userFace (by decide) (by decide)
    (by with_unfolding_all decide) rfl rfl
  have Hn := (verifyFace_spec_amended sFace "carol" subLong
    (List.replicate 128 (0 : Rat)) userFace (by decide) (by decide)
    (by with_unfolding_all decide) rfl rfl).2 (by decide)
  have H1 := H.1 (by decide)
  have hmatch : (verifyFace sFace "carol" subNear).isMatch = true := by
    rw [verifyFace_carol_matched]
    rfl
  exact ⟨hmatch, by rw [verifyFace_carol_matched]; rfl, (H1.2.2.1 hmatch).1,
    (H1.2.2.1 hmatch).2, Hn.1, Hn.2.1, Hn.2.2.1, Hn.2.2.2.2⟩
